import Mathlib

/-!
Verification of the openclaw structured-memory subsystem.

This file gives a shallow embedding of the TypeScript sources
  src/memory/structured-store.ts   (entity store over SQLite tables)
  src/memory/compression-engine.ts (weekly/monthly compaction + archival)
  src/memory/structured-backend.ts (search facade, relevance scoring, snippets)
  src/memory/markdown-sync.ts      (markdown reconciler: similarity matching)
and proves or refutes the frozen claims about them.

Modelling conventions:
- The SQLite tables are modelled as Lean lists of row structures; SQL
  statements are translated to the corresponding list operations.  Row
  order models insertion order of the underlying table scan.
- JS timestamps (milliseconds) are integers; JS numbers that carry scores
  and weights are rationals (every JS float is a rational; the only
  irrational-valued operation, Math.pow with fractional exponent in the
  importance recalculation, is modelled separately over the reals).
- randomUUID and Date.now are external nondeterminism: generated ids and
  the current time are explicit parameters.
- new Date(ms).getFullYear()/getMonth()/getDate() are modelled assuming a
  UTC host timezone; the civil-date conversion uses the standard
  proleptic-Gregorian algorithm, which is what the JS Date type computes.
- ON DELETE CASCADE is declared on every child table by
  ensureStructuredMemorySchema and node:sqlite enables foreign-key
  constraints by default, so deleteMemory carries the declared cascade
  and, for the same reason, an access-log INSERT whose memory_id has no
  parent memory row throws a constraint error (recordAccess returns
  none, and the error propagates out of the backend search).
- String searching and lowercasing follow the ASCII behaviour of the JS
  operations used by the source (includes, indexOf, toLowerCase,
  split on a regex of whitespace runs).
-/

namespace OpenClaw

/-! ## JS string primitives (structural recursion so the kernel can evaluate) -/

set_option maxRecDepth 100000 in
set_option maxRecDepth 100000 in
set_option maxRecDepth 100000 in
/-- Model of JS String.prototype.toLowerCase (ASCII range). -/
def jsToLower (s : String) : String :=
  String.mk (s.toList.map Char.toLower)

/-- Helper for jsSplitWs: walk the characters keeping the current token and
whether the previous character was whitespace, emitting a token at each
run of whitespace (JS split on a whitespace-run regex). -/
def jsSplitWsAux : Bool → List Char → List Char → List String
  | _, [], acc => [String.mk acc.reverse]
  | prevWs, c :: rest, acc =>
    if c.isWhitespace then
      if prevWs then jsSplitWsAux true rest acc
      else String.mk acc.reverse :: jsSplitWsAux true rest []
    else jsSplitWsAux false rest (c :: acc)

/-- Model of s.split on the regex of one-or-more whitespace characters:
tokens are the maximal non-whitespace runs, with an empty leading (or
trailing) token when the string starts (or ends) with whitespace, and a
single empty token for the empty string, exactly as in JS. -/
def jsSplitWs (s : String) : List String :=
  jsSplitWsAux false s.toList []

/-- Split a string at every occurrence of a single separator character,
as JS s.split(sep) for a one-character separator. -/
def jsSplitCharAux (sep : Char) : List Char → List Char → List String
  | [], acc => [String.mk acc.reverse]
  | c :: rest, acc =>
    if c = sep then String.mk acc.reverse :: jsSplitCharAux sep rest []
    else jsSplitCharAux sep rest (c :: acc)

/-- Model of JS content.split of a one-character separator string. -/
def jsSplitChar (s : String) (sep : Char) : List String :=
  jsSplitCharAux sep s.toList []

/-- First index at which sub occurs in s (character index), as JS indexOf
returning an option instead of -1. -/
def jsIndexOfAux (sub : List Char) : List Char → Nat → Option Nat
  | s, i =>
    if sub.isPrefixOf s then some i
    else
      match s with
      | [] => none
      | _ :: t => jsIndexOfAux sub t (i + 1)

/-- Model of JS s.indexOf(sub), as an option. -/
def jsIndexOf (s sub : String) : Option Nat :=
  jsIndexOfAux sub.toList s.toList 0

/-- Model of JS s.includes(sub). -/
def jsIncludes (s sub : String) : Bool :=
  (jsIndexOf s sub).isSome

/-- Model of JS s.startsWith(p). -/
def jsStartsWith (s p : String) : Bool :=
  p.toList.isPrefixOf s.toList

/-- Model of JS s.slice(start, stop) for 0 ≤ start ≤ stop (character
indices). -/
def jsSlice (s : String) (start stop : Nat) : String :=
  String.mk ((s.toList.drop start).take (stop - start))

/-- Model of JS s.trim(). -/
def jsTrim (s : String) : String :=
  String.mk (((s.toList.dropWhile Char.isWhitespace).reverse.dropWhile Char.isWhitespace).reverse)

/-- Model of JS s.padStart(2, "0") for the two-digit week/month keys. -/
def padStart2 (s : String) : String :=
  if s.length < 2 then "0" ++ s else s

/-- Number of characters of a string (JS .length; the sources only take
lengths of ASCII text, where UTF-16 units and characters agree). -/
def jsLength (s : String) : Nat := s.toList.length

/-! ## JS Date model (UTC) -/

/-- Epoch day number of a millisecond timestamp (floor division, as the JS
Date type computes its UTC calendar fields). -/
def msToDay (ms : Int) : Int := Int.fdiv ms 86400000

/-- Civil proleptic-Gregorian date (year, month, day) of an epoch day
number; the standard algorithm implemented by the JS Date type. -/
def civilFromDays (z0 : Int) : Int × Int × Int :=
  let z := z0 + 719468
  let era := Int.fdiv z 146097
  let doe := z - era * 146097
  let yoe := Int.fdiv (doe - Int.fdiv doe 1460 + Int.fdiv doe 36524 - Int.fdiv doe 146096) 365
  let y := yoe + era * 400
  let doy := doe - (365 * yoe + Int.fdiv yoe 4 - Int.fdiv yoe 100)
  let mp := Int.fdiv (5 * doy + 2) 153
  let d := doy - Int.fdiv (153 * mp + 2) 5 + 1
  let m := mp + (if mp < 10 then 3 else -9)
  (if m ≤ 2 then y + 1 else y, m, d)

/-- Epoch day number of a civil proleptic-Gregorian date (inverse of
civilFromDays); models Date.UTC(y, m-1, d) / 86400000. -/
def daysFromCivil (y m d : Int) : Int :=
  let y1 := if m ≤ 2 then y - 1 else y
  let era := Int.fdiv y1 400
  let yoe := y1 - era * 400
  let mp := Int.fmod (m + 9) 12
  let doy := Int.fdiv (153 * mp + 2) 5 + d - 1
  let doe := yoe * 365 + Int.fdiv yoe 4 - Int.fdiv yoe 100 + doy
  era * 146097 + doe - 719468

/-- Model of Date.prototype.getUTCDay on an epoch day number
(0 = Sunday; 1970-01-01 was a Thursday). -/
def dayOfWeek (day : Int) : Int := Int.fmod (day + 4) 7

/-! ## structured-store.ts: data model -/

/-- Memory types, structured-store.ts MemoryType. -/
inductive MemoryType where
  | note | summary | archive | decision | preference | todo
deriving DecidableEq, Repr

/-- Importance levels, structured-store.ts ImportanceLevel. -/
inductive ImportanceLevel where
  | low | medium | high | critical
deriving DecidableEq, Repr

/-- One row of the structured_memories table (columns of
ensureStructuredMemorySchema). -/
structure MemRow where
  id : String
  content : String
  summary : Option String
  sourcePath : String
  memoryType : MemoryType
  importanceLevel : ImportanceLevel
  importanceScore : ℚ
  createdAt : Int
  updatedAt : Int
  accessedAt : Option Int
  accessCount : Nat
  compressedFrom : Option (List String)
  compressionLevel : Int
  relatedMemories : Option (List String)
  sourceSessionId : Option String
  sourceChannel : Option String
deriving DecidableEq, Repr

/-- One row of the tags table. -/
structure TagRow where
  id : Nat
  name : String
  createdAt : Int
  memoryCount : Nat
deriving DecidableEq, Repr

/-- One row of the memory_tags join table. -/
structure LinkRow where
  memoryId : String
  tagId : Nat
deriving DecidableEq, Repr

/-- One row of the memory_access_log table (the AUTOINCREMENT surrogate id
is omitted: nothing in the sources reads it back). -/
structure AccessRow where
  memoryId : String
  accessedAt : Int
  query : Option String
  action : String
deriving DecidableEq, Repr

/-- One row of the memory_relations table. -/
structure RelRow where
  sourceId : String
  targetId : String
  relationType : String
  createdAt : Int
deriving DecidableEq, Repr

/-- The database state: the five tables created by
ensureStructuredMemorySchema, plus the AUTOINCREMENT counter of the tags
table (SQLite lastInsertRowid supply). -/
structure DB where
  memories : List MemRow
  tags : List TagRow
  memoryTags : List LinkRow
  accessLog : List AccessRow
  relations : List RelRow
  nextTagId : Nat
deriving DecidableEq, Repr

/-! ## structured-store.ts: operations -/

/-- SELECT of a memory row by primary key (getMemory, without the tag
join, which only decorates the returned object). -/
def getMemoryRow (db : DB) (id : String) : Option MemRow :=
  db.memories.find? (fun m => m.id == id)

/-- SELECT t.name ... JOIN memory_tags (getTagsForMemory). -/
def getTagsForMemory (db : DB) (memoryId : String) : List String :=
  ((db.memoryTags.filter (fun l => l.memoryId == memoryId)).filterMap
    (fun l => (db.tags.find? (fun t => t.id == l.tagId)).map (fun t => t.name)))

/-- Number of memory_tags rows for a tag id (the COUNT(*) subquery that
setTagsForMemory writes into tags.memory_count). -/
def tagRowCount (db : DB) (tagId : Nat) : Nat :=
  (db.memoryTags.filter (fun l => l.tagId == tagId)).length

/-- INSERT OR IGNORE INTO memory_tags (the link statement of
setTagsForMemory). -/
def insertOrIgnoreLink (db : DB) (memoryId : String) (tagId : Nat) : DB :=
  if db.memoryTags.any (fun l => l.memoryId == memoryId && l.tagId == tagId) then db
  else { db with memoryTags := db.memoryTags ++ [({ memoryId := memoryId, tagId := tagId } : LinkRow)] }

/-- UPDATE tags SET memory_count to the current number of link rows of
the tag (the recount statement of setTagsForMemory). -/
def recountTag (db : DB) (tagId : Nat) : DB :=
  { db with
    tags := db.tags.map (fun t =>
      if t.id == tagId then { t with memoryCount := tagRowCount db tagId } else t) }

/-- Body of the per-tag loop of setTagsForMemory: get-or-create the tag
(new tags take the next AUTOINCREMENT id and a zero count), INSERT OR
IGNORE the link row, then set that tag's memory_count to its current
number of link rows. -/
def setTagsStep (memoryId : String) (now : Int) (db : DB) (tagName : String) : DB :=
  match db.tags.find? (fun t => t.name == tagName) with
  | some t => recountTag (insertOrIgnoreLink db memoryId t.id) t.id
  | none =>
    let db1 :=
      { db with
        tags := db.tags ++ [({ id := db.nextTagId, name := tagName, createdAt := now, memoryCount := 0 } : TagRow)],
        nextTagId := db.nextTagId + 1 }
    recountTag (insertOrIgnoreLink db1 memoryId db.nextTagId) db.nextTagId

/-- setTagsForMemory: delete all of the memory's link rows, then run the
get-or-create / link / recount loop for each supplied tag name. -/
def setTagsForMemory (db : DB) (memoryId : String) (tagNames : List String) (now : Int) : DB :=
  let db0 := { db with memoryTags := db.memoryTags.filter (fun l => !(l.memoryId == memoryId)) }
  tagNames.foldl (setTagsStep memoryId now) db0

/-- The caller-supplied part of createMemory (the TS parameter type omits
id, createdAt, updatedAt and accessCount, which the store generates). -/
structure CreateInput where
  content : String
  summary : Option String := none
  sourcePath : String
  memoryType : MemoryType
  importanceLevel : ImportanceLevel
  importanceScore : ℚ
  tags : List String := []
  accessedAt : Option Int := none
  compressedFrom : Option (List String) := none
  compressionLevel : Option Int := none
  relatedMemories : Option (List String) := none
  sourceSessionId : Option String := none
  sourceChannel : Option String := none

/-- The full row that createMemory INSERTs for a given input, generated
id and creation time (compression_level defaults to 0). -/
def newMemRow (input : CreateInput) (id : String) (now : Int) : MemRow :=
  { id := id
    content := input.content
    summary := input.summary
    sourcePath := input.sourcePath
    memoryType := input.memoryType
    importanceLevel := input.importanceLevel
    importanceScore := input.importanceScore
    createdAt := now
    updatedAt := now
    accessedAt := none
    accessCount := 0
    compressedFrom := input.compressedFrom
    compressionLevel := input.compressionLevel.getD 0
    relatedMemories := input.relatedMemories
    sourceSessionId := input.sourceSessionId
    sourceChannel := input.sourceChannel }

/-- createMemory: INSERT the row, then attach tags when a non-empty tag
list is supplied.  The generated randomUUID and Date.now() are the id
and now parameters. -/
def createMemory (db : DB) (input : CreateInput) (id : String) (now : Int) : DB × MemRow :=
  let row := newMemRow input id now
  let db1 := { db with memories := db.memories ++ [row] }
  let db2 := if input.tags.isEmpty then db1 else setTagsForMemory db1 id input.tags now
  (db2, row)

/-- The partial update accepted by updateMemory
(Partial of the memory type minus id and createdAt). -/
structure MemoryUpdates where
  content : Option String := none
  summary : Option String := none
  memoryType : Option MemoryType := none
  importanceLevel : Option ImportanceLevel := none
  importanceScore : Option ℚ := none
  tags : Option (List String) := none
  updatedAt : Option Int := none
  accessedAt : Option Int := none
  accessCount : Option Nat := none
  sourcePath : Option String := none
  compressedFrom : Option (List String) := none
  compressionLevel : Option Int := none
  relatedMemories : Option (List String) := none

/-- Whether updateMemory collected any SET clause besides updated_at: the
function only inspects content, summary, memoryType, importanceLevel and
importanceScore (every other supplied field is silently dropped). -/
def hasColumnSets (u : MemoryUpdates) : Bool :=
  u.content.isSome || u.summary.isSome || u.memoryType.isSome ||
    u.importanceLevel.isSome || u.importanceScore.isSome

/-- The row produced by the UPDATE statement of updateMemory (only the
five inspected columns plus updated_at change). -/
def applyUpdates (u : MemoryUpdates) (now : Int) (m : MemRow) : MemRow :=
  { m with
    content := u.content.getD m.content
    summary := match u.summary with | some s => some s | none => m.summary
    memoryType := u.memoryType.getD m.memoryType
    importanceLevel := u.importanceLevel.getD m.importanceLevel
    importanceScore := u.importanceScore.getD m.importanceScore
    updatedAt := now }

/-- updateMemory: not-found returns the store unchanged with none; a
supplied tag list is replaced whole-set; the UPDATE statement runs only
when at least one of the five inspected columns was supplied. -/
def updateMemory (db : DB) (id : String) (u : MemoryUpdates) (now : Int) : DB × Option MemRow :=
  match getMemoryRow db id with
  | none => (db, none)
  | some _ =>
    let db1 := match u.tags with
      | some ts => setTagsForMemory db id ts now
      | none => db
    let db2 :=
      if hasColumnSets u then
        { db1 with
          memories := db1.memories.map (fun m => if m.id == id then applyUpdates u now m else m) }
      else db1
    (db2, getMemoryRow db2 id)

/-- deleteMemory: DELETE FROM structured_memories WHERE id = ?, with the
ON DELETE CASCADE declared by the schema on memory_tags,
memory_access_log and memory_relations (both edge endpoints).  The Bool
is the changes-greater-than-zero result. -/
def deleteMemory (db : DB) (id : String) : DB × Bool :=
  let found := db.memories.any (fun m => m.id == id)
  ({ memories := db.memories.filter (fun m => !(m.id == id))
     tags := db.tags
     memoryTags := db.memoryTags.filter (fun l => !(l.memoryId == id))
     accessLog := db.accessLog.filter (fun a => !(a.memoryId == id))
     relations := db.relations.filter (fun r => !(r.sourceId == id) && !(r.targetId == id))
     nextTagId := db.nextTagId }, found)

/-- recordAccess: append an access-log row, then bump access_count and
accessed_at on the matching memory row.  The memory_id column of
memory_access_log carries FOREIGN KEY ... REFERENCES
structured_memories(id), and node:sqlite enforces foreign keys by
default, so the INSERT throws when no memory row with this id exists:
none models that thrown constraint error (the same enforcement that
gives deleteMemory its cascade). -/
def recordAccess (db : DB) (memoryId : String) (action : String) (query : Option String) (now : Int) : Option DB :=
  if db.memories.any (fun m => m.id == memoryId) then
    let db1 := { db with
      accessLog := db.accessLog ++ [({ memoryId := memoryId, accessedAt := now, query := query, action := action } : AccessRow)] }
    some { db1 with
      memories := db1.memories.map (fun m =>
        if m.id == memoryId then { m with accessCount := m.accessCount + 1, accessedAt := some now } else m) }
  else none

/-- The ORDER BY options of searchMemories. -/
inductive OrderBy where
  | importance | recency | relevance
deriving DecidableEq, Repr

/-- The filter parameters of searchMemories. -/
structure SearchParams where
  query : Option String := none
  tags : Option (List String) := none
  memoryType : Option MemoryType := none
  importanceLevel : Option ImportanceLevel := none
  limit : Nat := 10
  offset : Nat := 0
  orderBy : OrderBy := .relevance

/-- ORDER BY importance_score DESC, created_at DESC (the relevance
ordering of searchMemories). -/
def relevanceOrder (a b : MemRow) : Prop :=
  b.importanceScore < a.importanceScore ∨
    (a.importanceScore = b.importanceScore ∧ b.createdAt ≤ a.createdAt)

instance : DecidableRel relevanceOrder := fun a b => by
  unfold relevanceOrder; infer_instance

/-- Backtracking helper of the LIKE matcher: does the continuation match
some suffix of the string (the search a percent wildcard performs). -/
def likeSuffix (k : List Char → Bool) : List Char → Bool
  | [] => k []
  | c :: t => k (c :: t) || likeSuffix k t

/-- The SQLite LIKE operator on character lists: a percent sign matches
any sequence of characters, an underscore matches any single character,
and ordinary characters compare ASCII case-insensitively. -/
def likeMatch : List Char → List Char → Bool
  | [], s => s.isEmpty
  | c :: ps, s =>
    if c = '%' then likeSuffix (likeMatch ps) s
    else
      match s with
      | [] => false
      | d :: t => (c = '_' || Char.toLower c = Char.toLower d) && likeMatch ps t

/-- SQLite s LIKE pat (case-insensitive over ASCII, with the percent and
underscore wildcards interpreted, also when they occur inside a bound
query value). -/
def sqlLike (s pat : String) : Bool :=
  likeMatch pat.toList s.toList

/-- searchMemories: WHERE filters (tag join with DISTINCT, type,
importance level, LIKE on content or summary with the bound value
percent-wrapped), ORDER BY per the order map, then LIMIT/OFFSET.  The
sort is modelled as a stable sort consistent with the ORDER BY key. -/
def searchMemories (db : DB) (p : SearchParams) : List MemRow :=
  let base := db.memories.filter (fun m =>
    (match p.tags with
     | some ts =>
       if ts.isEmpty then true
       else db.memoryTags.any (fun l =>
         l.memoryId == m.id && db.tags.any (fun t => t.id == l.tagId && ts.contains t.name))
     | none => true)
    && (match p.memoryType with | some mt => m.memoryType == mt | none => true)
    && (match p.importanceLevel with | some il => m.importanceLevel == il | none => true)
    && (match p.query with
        | some q => sqlLike m.content ("%" ++ q ++ "%") || (match m.summary with
            | some s => sqlLike s ("%" ++ q ++ "%")
            | none => false)
        | none => true))
  let ordered := match p.orderBy with
    | .importance => base.insertionSort (fun a b : MemRow => b.importanceScore ≤ a.importanceScore)
    | .recency => base.insertionSort (fun a b : MemRow => b.createdAt ≤ a.createdAt)
    | .relevance => base.insertionSort relevanceOrder
  (ordered.drop p.offset).take p.limit

/-- getMemoriesForCompression: created before the cutoff, compression
level AT MOST the supplied level, type not summary, oldest first,
LIMIT-bounded. -/
def getMemoriesForCompression (db : DB) (olderThan : Int) (compressionLevel : Int) (limit : Nat) : List MemRow :=
  ((db.memories.filter (fun m =>
      decide (m.createdAt < olderThan) &&
      decide (m.compressionLevel ≤ compressionLevel) &&
      !(m.memoryType == MemoryType.summary))).insertionSort
    (fun a b : MemRow => a.createdAt ≤ b.createdAt)).take limit

/-- Digits of a duration literal folded to a natural number
(parseInt on a digit string). -/
def digitsToNat (cs : List Char) : Nat :=
  cs.foldl (fun n c => n * 10 + (c.toNat - 48)) 0

/-- parseDuration: the grammar of one-or-more digits followed by d, h or
m, converted to milliseconds; none models the thrown configuration
error. -/
def parseDuration (s : String) : Option Int :=
  match s.toList.reverse with
  | [] => none
  | u :: revDigits =>
    let digits := revDigits.reverse
    if digits.isEmpty || !(digits.all Char.isDigit) then none
    else
      let v : Int := Int.ofNat (digitsToNat digits)
      if u = 'd' then some (v * 86400000)
      else if u = 'h' then some (v * 3600000)
      else if u = 'm' then some (v * 60000)
      else none

/-! ## structured-store.ts: importance recalculation (per-row formula)

recalculateImportance loops over all rows and rewrites each row's
importance_score from its own score, access_count and created_at.  The
per-row formula uses Math.pow with a real-valued exponent (age in days is
a fraction), so it is modelled over the reals; it is the only definition
in this file that is not kernel-evaluable, and concrete instances are
evaluated by rewriting the real power at whole-day ages. -/

/-- The new importance_score that recalculateImportance writes for a row
with the given score, access count and creation time, at time now, under
the configured decayFactor, accessBoost and recencyBoost. -/
noncomputable def recalcScore (decayFactor accessBoostCfg recencyBoostCfg : ℝ)
    (importanceScore : ℝ) (accessCount : Nat) (createdAt now : Int) : ℝ :=
  let ageInDays : ℝ := ((now : ℝ) - (createdAt : ℝ)) / 86400000
  let decayedScore := importanceScore * decayFactor ^ ageInDays
  let accessBoost := (accessCount : ℝ) * accessBoostCfg
  let recencyBoost := max 0 (1 - ageInDays / 30) * recencyBoostCfg
  min 1 (max 0 (decayedScore + accessBoost + recencyBoost))

/-! ## compression-engine.ts -/

/-- The compression block of the structured-memory configuration, with the
defaults merged in by the engine constructor. -/
structure CompressionCfg where
  dailyToWeekly : String := "7d"
  weeklyToMonthly : String := "30d"
  archiveAfter : String := "90d"
  minMemoriesForSummary : Nat := 5

/-- The default compression configuration. -/
def defaultCompressionCfg : CompressionCfg := {}

/-- getWeekNumber: Thursday-anchored ISO week number of the civil date of
a millisecond timestamp (day arithmetic replaces the millisecond
arithmetic of the source one-for-one). -/
def getWeekNumber (ms : Int) : Int :=
  let d := msToDay ms
  let wd := dayOfWeek d
  let dayNum := if wd = 0 then 7 else wd
  let dThu := d + 4 - dayNum
  let y := (civilFromDays dThu).1
  let yearStart := daysFromCivil y 1 1
  Int.fdiv (dThu - yearStart + 1 + 6) 7

/-- The year-week grouping key of groupByWeek (note the source prefixes
the DATE year, not the ISO week-year). -/
def weekKey (ms : Int) : String :=
  let y := (civilFromDays (msToDay ms)).1
  toString y ++ "-W" ++ padStart2 (toString (getWeekNumber ms))

/-- The year-month grouping key of groupByMonth. -/
def monthKey (ms : Int) : String :=
  let c := civilFromDays (msToDay ms)
  toString c.1 ++ "-" ++ padStart2 (toString c.2.1)

/-- Grouping in first-occurrence order with per-group insertion order (a
JS Map iterated in insertion order). -/
def groupByKey (key : MemRow → String) (rows : List MemRow) : List (String × List MemRow) :=
  rows.foldl (fun groups m =>
    let k := key m
    if groups.any (fun g => g.1 == k) then
      groups.map (fun g => if g.1 == k then (g.1, g.2 ++ [m]) else g)
    else groups ++ [(k, [m])]) []

/-- Math.max over the group's importance scores (groups are always
non-empty; the empty case never arises). -/
def maxScore : List MemRow → ℚ
  | [] => 0
  | m :: ms => ms.foldl (fun acc x => max acc x.importanceScore) m.importanceScore

/-- calculateAverageImportance: bucket the mean score. -/
def calculateAverageImportance (rows : List MemRow) : ImportanceLevel :=
  let avg := (rows.map (fun m => m.importanceScore)).sum / (rows.length : ℚ)
  if avg > 0.8 then .critical
  else if avg > 0.6 then .high
  else if avg > 0.4 then .medium
  else .low

/-- The regex replace of a leading run of hashes and whitespace used on
header lines. -/
def stripHeaderMarks (s : String) : String :=
  if jsStartsWith s "#" then
    String.mk ((s.toList.dropWhile (fun c => c = '#')).dropWhile Char.isWhitespace)
  else s

/-- generateSummary: the deterministic heuristic summary (headers become
key topics, marker lines become important items).  It always returns a
string beginning with a hash mark, never null. -/
def generateSummary (rows : List MemRow) (level : String) : String :=
  let contents := String.intercalate "\n\n---\n\n" (rows.map (fun m => m.content))
  let lines := jsSplitChar contents '\n'
  let headers := lines.filter (fun l => jsStartsWith l "##" || jsStartsWith l "###")
  let s0 := "# " ++ (if level == "weekly" then "Weekly" else "Monthly") ++ " Summary\n\n"
  let s1 := s0 ++ "Generated from " ++ toString rows.length ++ " memories.\n\n"
  let s2 :=
    if headers.length > 0 then
      s1 ++ "## Key Topics\n\n" ++
        String.join ((headers.take 10).map (fun h => "- " ++ stripHeaderMarks h ++ "\n"))
    else s1
  let importantLines := lines.filter (fun l =>
    jsIncludes (jsToLower l) "important" || jsIncludes (jsToLower l) "decision" ||
    jsIncludes (jsToLower l) "conclusion" || jsIncludes (jsToLower l) "action item")
  if importantLines.length > 0 then
    s2 ++ "\n## Important Items\n\n" ++
      String.join ((importantLines.take 5).map (fun l => "- " ++ jsTrim l ++ "\n"))
  else s2

/-- The createMemory argument built for a weekly summary group. -/
def weeklySummaryInput (weekK : String) (group : List MemRow) (summary : String) : CreateInput :=
  { content := summary
    sourcePath := "memory/summaries/week-" ++ weekK ++ ".md"
    memoryType := .summary
    importanceLevel := calculateAverageImportance group
    importanceScore := maxScore group
    tags := ["weekly-summary", "auto-generated"]
    compressedFrom := some (group.map (fun m => m.id))
    compressionLevel := some 1 }

/-- Per-group body of compressToWeekly: skip small groups, create the
summary record, then mark each source with an updateMemory call that
supplies only compressionLevel.  State is (store, number created); the
id of the k-th created summary is fresh k. -/
def processWeeklyGroup (minCount : Nat) (now : Int) (fresh : Nat → String)
    (st : DB × Nat) (g : String × List MemRow) : DB × Nat :=
  if g.2.length < minCount then st
  else
    let summary := generateSummary g.2 "weekly"
    if summary == "" then st
    else
      let db1 := (createMemory st.1 (weeklySummaryInput g.1 g.2 summary) (fresh st.2) now).1
      let db2 := g.2.foldl (fun d m => (updateMemory d m.id { compressionLevel := some 1 } now).1) db1
      (db2, st.2 + 1)

/-- compressToWeekly: select level-at-most-0 records older than the
dailyToWeekly threshold, group by year-week, and process each group.
none models the configuration error thrown for an unparseable duration.
The store operations of the model are total, so the per-group error
counter of the source is always zero and is omitted. -/
def compressToWeekly (cfg : CompressionCfg) (db : DB) (now : Int) (fresh : Nat → String) :
    Option (DB × Nat) :=
  match parseDuration cfg.dailyToWeekly with
  | none => none
  | some minAge =>
    let cutoff := now - minAge
    let memories := getMemoriesForCompression db cutoff 0 1000
    let groups := groupByKey (fun m => weekKey m.createdAt) memories
    some (groups.foldl (processWeeklyGroup cfg.minMemoriesForSummary now fresh) (db, 0))

/-- The createMemory argument built for a monthly summary group
(importance level fixed at high). -/
def monthlySummaryInput (monthK : String) (group : List MemRow) (summary : String) : CreateInput :=
  { content := summary
    sourcePath := "memory/summaries/month-" ++ monthK ++ ".md"
    memoryType := .summary
    importanceLevel := .high
    importanceScore := maxScore group
    tags := ["monthly-summary", "auto-generated"]
    compressedFrom := some (group.map (fun m => m.id))
    compressionLevel := some 2 }

/-- Per-group body of compressToMonthly: skip groups under the hardcoded
minimum of 2, create the monthly summary, then issue the same
level-only updateMemory calls as the weekly stage (no delete of the
sources appears anywhere in the stage). -/
def processMonthlyGroup (now : Int) (fresh : Nat → String)
    (st : DB × Nat) (g : String × List MemRow) : DB × Nat :=
  if g.2.length < 2 then st
  else
    let summary := generateSummary g.2 "monthly"
    if summary == "" then st
    else
      let db1 := (createMemory st.1 (monthlySummaryInput g.1 g.2 summary) (fresh st.2) now).1
      let db2 := g.2.foldl (fun d m => (updateMemory d m.id { compressionLevel := some 2 } now).1) db1
      (db2, st.2 + 1)

/-- compressToMonthly: select level-at-most-1 records older than the
weeklyToMonthly threshold, group by year-month, and process each group. -/
def compressToMonthly (cfg : CompressionCfg) (db : DB) (now : Int) (fresh : Nat → String) :
    Option (DB × Nat) :=
  match parseDuration cfg.weeklyToMonthly with
  | none => none
  | some minAge =>
    let cutoff := now - minAge
    let memories := getMemoriesForCompression db cutoff 1 1000
    let groups := groupByKey (fun m => monthKey m.createdAt) memories
    some (groups.foldl (processMonthlyGroup now fresh) (db, 0))

/-- Per-record body of archiveOldMemories: skip records accessed after
the cutoff (JS truthiness makes an accessed_at of 0 count as absent),
otherwise mutate memory_type to archive in place. -/
def archiveStep (cutoff now : Int) (st : DB × Nat) (m : MemRow) : DB × Nat :=
  let skip := match m.accessedAt with
    | some t => !(t == 0) && decide (cutoff < t)
    | none => false
  if skip then st
  else ((updateMemory st.1 m.id { memoryType := some .archive } now).1, st.2 + 1)

/-- archiveOldMemories: the selection passes 2 as the level bound to
getMemoriesForCompression (which filters with level AT MOST the bound),
then archives every selected record not recently accessed. -/
def archiveOldMemories (cfg : CompressionCfg) (db : DB) (now : Int) : Option (DB × Nat) :=
  match parseDuration cfg.archiveAfter with
  | none => none
  | some minAge =>
    let cutoff := now - minAge
    let memories := getMemoriesForCompression db cutoff 2 1000
    some (memories.foldl (archiveStep cutoff now) (db, 0))

/-! ## structured-backend.ts -/

/-- calculateRelevanceScore: importance and recency weighted, plus the
fraction of query tokens occurring in the content, clamped to the unit
interval. -/
def calculateRelevanceScore (importanceWeight recencyWeight : ℚ) (m : MemRow)
    (query : String) (now : Int) : ℚ :=
  let score0 := m.importanceScore * importanceWeight
  let ageInDays : ℚ := ((now - m.createdAt : Int) : ℚ) / 86400000
  let recencyScore := max 0 (1 - ageInDays / 30) * recencyWeight
  let queryWords := jsSplitWs (jsToLower query)
  let contentLower := jsToLower m.content
  let matchCount := (queryWords.filter (fun w => jsIncludes contentLower w)).length
  let textScore := ((matchCount : ℚ) / (queryWords.length : ℚ)) * (1 - importanceWeight - recencyWeight)
  min 1 (max 0 (score0 + recencyScore + textScore))

/-- extractSnippet: whole content when short, else a window of 200
characters before and 500 after the first case-insensitive match (or the
leading 700 characters when there is no match), with ellipses at cut
edges. -/
def extractSnippet (content query : String) : String :=
  if jsLength content ≤ 700 then content
  else
    match jsIndexOf (jsToLower content) (jsToLower query) with
    | none => jsSlice content 0 700 ++ "..."
    | some matchIndex =>
      let start := matchIndex - 200
      let stop := min (jsLength content) (matchIndex + jsLength query + 500)
      let snippet := jsSlice content start stop
      let s1 := if 0 < start then "..." ++ snippet else snippet
      if stop < jsLength content then s1 ++ "..." else s1

/-- One entry of the MemorySearchResult list the backend returns. -/
structure SearchResult where
  path : String
  startLine : Nat
  endLine : Nat
  score : ℚ
  snippet : String
deriving DecidableEq, Repr

/-- backend search: first one recordAccess under the literal id
search-query, then a relevance-ordered store search, mapping to scored
and snippet-extracted results, sorted by score and truncated.  The
recordAccess insert violates the access-log foreign key whenever the
store holds no memory row whose id is literally search-query, so the
thrown constraint error aborts the whole call before any result is
produced: none models search() rejecting with that error. -/
def backendSearch (db : DB) (query : String) (maxResults : Nat)
    (importanceWeight recencyWeight : ℚ) (now : Int) : Option (DB × List SearchResult) :=
  match recordAccess db "search-query" "search" (some query) now with
  | none => none
  | some db1 =>
    let memories := searchMemories db1 { query := some query, limit := maxResults, orderBy := .relevance }
    let results := memories.map (fun m =>
      ({ path := m.sourcePath
         startLine := 1
         endLine := min (jsSplitChar m.content '\n').length 20
         score := calculateRelevanceScore importanceWeight recencyWeight m query now
         snippet := extractSnippet m.content query } : SearchResult))
    let sorted := results.insertionSort (fun a b : SearchResult => b.score ≤ a.score)
    some (db1, sorted.take maxResults)

/-! ## markdown-sync.ts: similarity matching -/

/-- The deduplicated lowercase whitespace-token set of a string (the JS
Set built by calculateSimilarity). -/
def tokenSet (s : String) : Finset String :=
  (jsSplitWs (jsToLower s)).toFinset

/-- calculateSimilarity: the token-set overlap divided by the LARGER of
the two set sizes (the source divides by Math.max of the sizes). -/
def calculateSimilarity (a b : String) : ℚ :=
  ((tokenSet a ∩ tokenSet b).card : ℚ) / ((max (tokenSet a).card (tokenSet b).card : ℕ) : ℚ)

/-- Modelled from the spec (for comparison only, not in the source): the
word-set Jaccard similarity, intersection size over union size of the
lowercase whitespace-token sets, as the specification describes the
matcher. -/
def jaccardSimilarity (a b : String) : ℚ :=
  ((tokenSet a ∩ tokenSet b).card : ℚ) / (((tokenSet a ∪ tokenSet b).card : ℕ) : ℚ)

/-- findSectionByContent: an existing record matches a section exactly
when the similarity is STRICTLY greater than 0.7. -/
def findSectionByContent (existing : MemRow) (content : String) : Option MemRow :=
  if calculateSimilarity existing.content content > 0.7 then some existing else none

/-- One parsed markdown section (content, inferred type, header tags). -/
structure ParsedSection where
  content : String
  memoryType : MemoryType
  tags : List String

/-- Per-section body of the existing-file branch of syncFile: a matched
section updates the matched record in place (content and type), an
unmatched section is inserted as a new record at medium importance. -/
def syncSection (db : DB) (existing : MemRow) (sec : ParsedSection) (path : String)
    (freshId : String) (now : Int) : DB :=
  match findSectionByContent existing sec.content with
  | some ex => (updateMemory db ex.id { content := some sec.content, memoryType := some sec.memoryType } now).1
  | none =>
    (createMemory db
      { content := sec.content
        sourcePath := path
        memoryType := sec.memoryType
        importanceLevel := .medium
        importanceScore := 0.5
        tags := sec.tags } freshId now).1

/-! ## Auxiliary definitions used by the verification -/

/-- Well-formedness of the tags table as SQLite guarantees it: the
AUTOINCREMENT primary keys are distinct, the names are UNIQUE, and the
id counter is fresh. -/
def TagsWF (db : DB) : Prop :=
  (db.tags.map (fun t => t.id)).Nodup ∧
  (db.tags.map (fun t => t.name)).Nodup ∧
  ∀ t ∈ db.tags, t.id < db.nextTagId

instance (db : DB) : Decidable (TagsWF db) := by
  unfold TagsWF; infer_instance

/-- The columns of a memory row that updateMemory can never write: its id
and everything outside content, summary, memory_type, importance_level,
importance_score and updated_at. -/
def frameFields (m : MemRow) :
    String × String × Int × Option Int × Nat × Option (List String) × Int ×
      Option (List String) × Option String × Option String :=
  (m.id, m.sourcePath, m.createdAt, m.accessedAt, m.accessCount, m.compressedFrom,
   m.compressionLevel, m.relatedMemories, m.sourceSessionId, m.sourceChannel)

/-- A level-0 note row used to build concrete stores (medium importance,
never accessed). -/
def plainNote (id : String) (createdAt : Int) : MemRow :=
  { id := id, content := "daily note", summary := none, sourcePath := "memory/notes.md",
    memoryType := .note, importanceLevel := .medium, importanceScore := 1/2,
    createdAt := createdAt, updatedAt := createdAt, accessedAt := none, accessCount := 0,
    compressedFrom := none, compressionLevel := 0, relatedMemories := none,
    sourceSessionId := none, sourceChannel := none }

/-- An otherwise-empty store (the state after ensureStructuredMemorySchema
on a fresh database; AUTOINCREMENT row ids start at 1). -/
def emptyDB : DB :=
  { memories := [], tags := [], memoryTags := [], accessLog := [], relations := [], nextTagId := 1 }

/-- Store of exactly six level-0 note records created on the six
consecutive days 2024-01-01 through 2024-01-06 (one ISO week, week
2024-W01), for the weekly-compaction scenario. -/
def sixNoteDB : DB :=
  { emptyDB with memories :=
      [plainNote "m1" 1704067200000, plainNote "m2" 1704153600000, plainNote "m3" 1704240000000,
       plainNote "m4" 1704326400000, plainNote "m5" 1704412800000, plainNote "m6" 1704499200000] }

/-- Time point 2024-01-15T00:00Z, at which the six notes of sixNoteDB are
between 9 and 14 days old (all older than the 7-day weekly threshold). -/
def sixNoteNow : Int := 1705276800000

/-- Store of two level-1 note records created 2024-03-10 and 2024-03-11
(one calendar month), for the monthly-compaction scenario. -/
def twoLevelOneDB : DB :=
  { emptyDB with memories :=
      [{ plainNote "n1" 1710028800000 with compressionLevel := 1 },
       { plainNote "n2" 1710115200000 with compressionLevel := 1 }] }

/-- Time point 2024-04-24T00:00Z, at which the two level-1 records of
twoLevelOneDB are about 45 days old (older than the 30-day monthly
threshold). -/
def twoLevelOneNow : Int := 1713916800000

/-- Store of a single level-0 note record created at the epoch and never
accessed, for the archival scenario. -/
def oneColdNoteDB : DB :=
  { emptyDB with memories := [plainNote "a1" 0] }

/-- Time point 100 days after the epoch, past the 90-day archive
threshold for the record of oneColdNoteDB. -/
def oneColdNoteNow : Int := 8640000000

/-- Store holding one memory m1 tagged a (built through createMemory), for
the tag-count scenario. -/
def oneTaggedDB : DB :=
  (createMemory emptyDB
    { content := "c", sourcePath := "p", memoryType := .note, importanceLevel := .medium,
      importanceScore := 1, tags := ["a"] } "m1" 0).1

/-- oneTaggedDB after replacing the tag set of m1 by b via updateMemory. -/
def retaggedDB : DB := (updateMemory oneTaggedDB "m1" { tags := some ["b"] } 1).1

/-- Store of one short memory whose content contains the query word
hello, for the search access-logging scenario. -/
def oneHelloDB : DB :=
  { emptyDB with memories := [{ plainNote "m1" 0 with content := "hello world", sourcePath := "p1" }] }

/-- oneTaggedDB with a second memory m2 also tagged a, for the
delete-cascade witness. -/
def twoTaggedDB : DB :=
  (createMemory oneTaggedDB
    { content := "c2", sourcePath := "p", memoryType := .note, importanceLevel := .medium,
      importanceScore := 1, tags := ["a"] } "m2" 0).1

/-- An update supplying only fields updateMemory does not track, for the
C10 witness. -/
def untrackedOnlyUpdate : MemoryUpdates :=
  { compressionLevel := some 5, compressedFrom := some ["x"], accessedAt := some 3,
    accessCount := some 7, sourcePath := some "q" }

/-- The existing record of the reconciler witness scenario. -/
def wExisting : MemRow := { plainNote "e1" 0 with content := "alpha beta" }

/-- The parsed section of the reconciler witness scenario (identical
words, so the similarity is 1). -/
def wSection : ParsedSection := { content := "alpha beta", memoryType := .note, tags := [] }

/-! ## Helper lemmas about the store operations -/

@[simp]
theorem insertOrIgnoreLink_tags (db : DB) (memoryId : String) (tagId : Nat) :
    (insertOrIgnoreLink db memoryId tagId).tags = db.tags := by
  unfold insertOrIgnoreLink; split <;> rfl

@[simp]
theorem insertOrIgnoreLink_nextTagId (db : DB) (memoryId : String) (tagId : Nat) :
    (insertOrIgnoreLink db memoryId tagId).nextTagId = db.nextTagId := by
  unfold insertOrIgnoreLink; split <;> rfl

@[simp]
theorem insertOrIgnoreLink_memories (db : DB) (memoryId : String) (tagId : Nat) :
    (insertOrIgnoreLink db memoryId tagId).memories = db.memories := by
  unfold insertOrIgnoreLink; split <;> rfl

@[simp]
theorem recountTag_memoryTags (db : DB) (tagId : Nat) :
    (recountTag db tagId).memoryTags = db.memoryTags := rfl

@[simp]
theorem recountTag_nextTagId (db : DB) (tagId : Nat) :
    (recountTag db tagId).nextTagId = db.nextTagId := rfl

@[simp]
theorem recountTag_memories (db : DB) (tagId : Nat) :
    (recountTag db tagId).memories = db.memories := rfl

@[simp]
theorem tagRowCount_recountTag (db : DB) (tid tid2 : Nat) :
    tagRowCount (recountTag db tid2) tid = tagRowCount db tid := rfl

theorem setTagsStep_memories (memoryId : String) (now : Int) (db : DB) (n : String) :
    (setTagsStep memoryId now db n).memories = db.memories := by
  unfold setTagsStep
  cases db.tags.find? (fun t => t.name == n) <;> simp

theorem foldl_setTagsStep_memories (memoryId : String) (now : Int) (ts : List String) (db : DB) :
    (ts.foldl (setTagsStep memoryId now) db).memories = db.memories := by
  induction ts generalizing db with
  | nil => rfl
  | cons t ts ih => rw [List.foldl_cons, ih, setTagsStep_memories]

theorem setTagsForMemory_memories (db : DB) (memoryId : String) (ts : List String) (now : Int) :
    (setTagsForMemory db memoryId ts now).memories = db.memories := by
  unfold setTagsForMemory
  rw [foldl_setTagsStep_memories]

theorem createMemory_memories (db : DB) (input : CreateInput) (id : String) (now : Int) :
    (createMemory db input id now).1.memories = db.memories ++ [newMemRow input id now] := by
  unfold createMemory
  dsimp only
  split
  · rfl
  · rw [setTagsForMemory_memories]

theorem updateMemory_untracked (db : DB) (id : String) (u : MemoryUpdates) (now : Int)
    (h1 : hasColumnSets u = false) (h2 : u.tags = none) :
    (updateMemory db id u now).1 = db := by
  unfold updateMemory
  cases h : getMemoryRow db id <;> simp [h1, h2]

theorem updateMemory_levelOnly (db : DB) (id : String) (l : Int) (now : Int) :
    (updateMemory db id { compressionLevel := some l } now).1 = db :=
  updateMemory_untracked db id _ now rfl rfl

theorem frameFields_applyUpdates (u : MemoryUpdates) (now : Int) (m : MemRow) :
    frameFields (applyUpdates u now m) = frameFields m := rfl

theorem updateMemory_frame (db : DB) (id : String) (u : MemoryUpdates) (now : Int) :
    (updateMemory db id u now).1.memories.map frameFields = db.memories.map frameFields := by
  have hmem :
      (match u.tags with
        | some ts => setTagsForMemory db id ts now
        | none => db).memories = db.memories := by
    cases u.tags <;> simp [setTagsForMemory_memories]
  unfold updateMemory
  cases h : getMemoryRow db id
  · rfl
  · dsimp only
    split
    · dsimp only
      rw [hmem, List.map_map]
      refine List.map_congr_left (fun m _ => ?_)
      by_cases hid : (m.id == id) <;> simp [hid, Function.comp, frameFields_applyUpdates]
    · rw [hmem]

theorem updateMemory_ids (db : DB) (id : String) (u : MemoryUpdates) (now : Int) :
    (updateMemory db id u now).1.memories.map (fun m => m.id)
      = db.memories.map (fun m => m.id) := by
  have h := congrArg (List.map Prod.fst) (updateMemory_frame db id u now)
  rwa [List.map_map, List.map_map] at h

theorem foldl_updateMemory_levelOnly (now : Int) (l : Int) (rows : List MemRow) (db : DB) :
    rows.foldl (fun d m => (updateMemory d m.id { compressionLevel := some l } now).1) db = db := by
  induction rows generalizing db with
  | nil => rfl
  | cons r rs ih => rw [List.foldl_cons, updateMemory_levelOnly, ih]

theorem processMonthlyGroup_shape (now : Int) (fresh : Nat → String)
    (st : DB × Nat) (g : String × List MemRow) :
    processMonthlyGroup now fresh st g = st ∨
      ((processMonthlyGroup now fresh st g).1.memories =
          st.1.memories ++
            [newMemRow (monthlySummaryInput g.1 g.2 (generateSummary g.2 "monthly"))
              (fresh st.2) now] ∧
        (processMonthlyGroup now fresh st g).2 = st.2 + 1) := by
  unfold processMonthlyGroup
  split
  · exact Or.inl rfl
  · dsimp only
    split
    · exact Or.inl rfl
    · refine Or.inr ⟨?_, rfl⟩
      dsimp only
      rw [foldl_updateMemory_levelOnly, createMemory_memories]

theorem foldl_processMonthlyGroup_shape (now : Int) (fresh : Nat → String)
    (gs : List (String × List MemRow)) (st : DB × Nat) :
    (gs.foldl (processMonthlyGroup now fresh) st).1.memories.length + st.2
        = st.1.memories.length + (gs.foldl (processMonthlyGroup now fresh) st).2
    ∧ ∀ m ∈ st.1.memories, m ∈ (gs.foldl (processMonthlyGroup now fresh) st).1.memories := by
  induction gs generalizing st with
  | nil => exact ⟨by simp only [List.foldl_nil], fun m hm => by simpa only [List.foldl_nil] using hm⟩
  | cons g gs ih =>
    rw [List.foldl_cons]
    rcases processMonthlyGroup_shape now fresh st g with heq | ⟨hmem, hcnt⟩
    · rw [heq]
      exact ih st
    · obtain ⟨ihlen, ihmem⟩ := ih (processMonthlyGroup now fresh st g)
      have hlen1 : (processMonthlyGroup now fresh st g).1.memories.length
          = st.1.memories.length + 1 := by
        rw [hmem, List.length_append, List.length_singleton]
      rw [hcnt, hlen1] at ihlen
      refine ⟨by omega, fun m hm => ?_⟩
      exact ihmem m (by rw [hmem]; exact List.mem_append_left _ hm)

/-! ## Helper lemmas for the tag-count analysis -/

theorem tagRowCount_insertOrIgnoreLink_ne (db : DB) (memoryId : String) (tid tid2 : Nat)
    (hne : tid ≠ tid2) :
    tagRowCount (insertOrIgnoreLink db memoryId tid2) tid = tagRowCount db tid := by
  unfold insertOrIgnoreLink tagRowCount
  split
  · rfl
  · dsimp only
    rw [List.filter_append]
    have : List.filter (fun l => l.tagId == tid)
        [({ memoryId := memoryId, tagId := tid2 } : LinkRow)] = [] := by
      simp [hne.symm]
    rw [this, List.append_nil]

theorem recountTag_id_name (db : DB) (tid : Nat) (t : TagRow)
    (ht : t ∈ (recountTag db tid).tags) :
    ∃ t0 ∈ db.tags, t.id = t0.id ∧ t.name = t0.name ∧
      (t0.id ≠ tid → t = t0) ∧ (t0.id = tid → t.memoryCount = tagRowCount db tid) := by
  unfold recountTag at ht
  dsimp only at ht
  rcases List.mem_map.mp ht with ⟨t0, ht0, heq⟩
  subst heq
  by_cases h : t0.id = tid
  · exact ⟨t0, ht0, by simp [h], by simp [h], fun hne => by simp [h] at hne ⊢,
      fun _ => by simp [h]⟩
  · exact ⟨t0, ht0, by simp [h], by simp [h], fun _ => by simp [h],
      fun hc => absurd hc (by simp [h])⟩

theorem TagsWF_recountTag (db : DB) (tid : Nat) (h : TagsWF db) :
    TagsWF (recountTag db tid) := by
  obtain ⟨hid, hname, hbound⟩ := h
  have hidmap : (recountTag db tid).tags.map (fun t => t.id) = db.tags.map (fun t => t.id) := by
    unfold recountTag
    dsimp only
    rw [List.map_map]
    refine List.map_congr_left (fun t _ => ?_)
    by_cases ht : t.id = tid <;> simp [ht, Function.comp]
  have hnamemap : (recountTag db tid).tags.map (fun t => t.name) = db.tags.map (fun t => t.name) := by
    unfold recountTag
    dsimp only
    rw [List.map_map]
    refine List.map_congr_left (fun t _ => ?_)
    by_cases ht : t.id = tid <;> simp [ht, Function.comp]
  refine ⟨by rw [hidmap]; exact hid, by rw [hnamemap]; exact hname, ?_⟩
  intro t ht
  rcases recountTag_id_name db tid t ht with ⟨t0, ht0, hids, -, -, -⟩
  rw [recountTag_nextTagId, hids]
  exact hbound t0 ht0

theorem mem_recountTag_of_ne (db : DB) (tid : Nat) (t : TagRow)
    (ht : t ∈ db.tags) (hne : t.id ≠ tid) : t ∈ (recountTag db tid).tags := by
  unfold recountTag
  dsimp only
  exact List.mem_map.mpr ⟨t, ht, by simp [hne]⟩

theorem tag_id_injective (db : DB) (h : TagsWF db) {t t2 : TagRow}
    (ht : t ∈ db.tags) (ht2 : t2 ∈ db.tags) (heq : t.id = t2.id) : t = t2 :=
  List.inj_on_of_nodup_map h.1 ht ht2 heq

theorem tag_name_injective (db : DB) (h : TagsWF db) {t t2 : TagRow}
    (ht : t ∈ db.tags) (ht2 : t2 ∈ db.tags) (heq : t.name = t2.name) : t = t2 :=
  List.inj_on_of_nodup_map h.2.1 ht ht2 heq

theorem TagsWF_setTagsStep (memoryId : String) (now : Int) (db : DB) (n : String)
    (h : TagsWF db) : TagsWF (setTagsStep memoryId now db n) := by
  unfold setTagsStep
  cases hf : db.tags.find? (fun t => t.name == n) with
  | some t0 =>
    apply TagsWF_recountTag
    obtain ⟨hid, hname, hbound⟩ := h
    exact ⟨by simpa using hid, by simpa using hname, fun t ht => by
      simp only [insertOrIgnoreLink_tags, insertOrIgnoreLink_nextTagId] at ht ⊢
      exact hbound t ht⟩
  | none =>
    dsimp only
    apply TagsWF_recountTag
    obtain ⟨hid, hname, hbound⟩ := h
    have hnotin : ∀ t ∈ db.tags, t.name ≠ n := by
      intro t ht
      have := List.find?_eq_none.mp hf t ht
      simpa using this
    refine ⟨?_, ?_, ?_⟩
    · simp only [insertOrIgnoreLink_tags, List.map_append, List.map_cons, List.map_nil]
      rw [List.nodup_append]
      refine ⟨hid, List.nodup_singleton _, ?_⟩
      intro x hx hx2
      simp only [List.mem_singleton] at hx2
      rcases List.mem_map.mp hx with ⟨t, ht, hteq⟩
      have := hbound t ht
      omega
    · simp only [insertOrIgnoreLink_tags, List.map_append, List.map_cons, List.map_nil]
      rw [List.nodup_append]
      refine ⟨hname, List.nodup_singleton _, ?_⟩
      intro x hx hx2
      simp only [List.mem_singleton] at hx2
      rcases List.mem_map.mp hx with ⟨t, ht, hteq⟩
      exact hnotin t ht (hteq.trans hx2)
    · intro t ht
      simp only [insertOrIgnoreLink_tags, insertOrIgnoreLink_nextTagId, List.mem_append,
        List.mem_singleton] at ht ⊢
      rcases ht with ht | ht
      · have := hbound t ht
        omega
      · subst ht
        simp

theorem setTagsStep_frame (memoryId : String) (now : Int) (db : DB) (n : String)
    (h : TagsWF db) (t : TagRow) (ht : t ∈ db.tags) (hne : t.name ≠ n) :
    t ∈ (setTagsStep memoryId now db n).tags ∧
      tagRowCount (setTagsStep memoryId now db n) t.id = tagRowCount db t.id := by
  unfold setTagsStep
  cases hf : db.tags.find? (fun t => t.name == n) with
  | some t0 =>
    have ht0mem : t0 ∈ db.tags := List.mem_of_find?_eq_some hf
    have ht0name : t0.name = n := by simpa using List.find?_some hf
    have hidne : t.id ≠ t0.id := fun hideq =>
      hne (by rw [tag_id_injective db h ht ht0mem hideq, ht0name])
    constructor
    · exact mem_recountTag_of_ne _ _ _ (by simpa using ht) hidne
    · rw [tagRowCount_recountTag, tagRowCount_insertOrIgnoreLink_ne db memoryId t.id t0.id hidne]
  | none =>
    dsimp only
    have hidne : t.id ≠ db.nextTagId := by
      have := h.2.2 t ht
      omega
    constructor
    · refine mem_recountTag_of_ne _ _ _ ?_ hidne
      simp only [insertOrIgnoreLink_tags, List.mem_append]
      exact Or.inl ht
    · rw [tagRowCount_recountTag, tagRowCount_insertOrIgnoreLink_ne _ memoryId t.id db.nextTagId hidne]
      rfl

theorem setTagsStep_self (memoryId : String) (now : Int) (db : DB) (n : String) :
    ∃ t1 ∈ (setTagsStep memoryId now db n).tags, t1.name = n ∧
      t1.memoryCount = tagRowCount (setTagsStep memoryId now db n) t1.id := by
  unfold setTagsStep
  cases hf : db.tags.find? (fun t => t.name == n) with
  | some t0 =>
    have ht0mem : t0 ∈ db.tags := List.mem_of_find?_eq_some hf
    have ht0name : t0.name = n := by simpa using List.find?_some hf
    refine ⟨{ t0 with memoryCount := tagRowCount (insertOrIgnoreLink db memoryId t0.id) t0.id },
      ?_, ht0name, ?_⟩
    · unfold recountTag
      dsimp only
      exact List.mem_map.mpr ⟨t0, by simpa using ht0mem, by simp⟩
    · simp
  | none =>
    dsimp only
    refine ⟨_, List.mem_map.mpr
      ⟨({ id := db.nextTagId, name := n, createdAt := now, memoryCount := 0 } : TagRow),
        by simp, rfl⟩, ?_, ?_⟩ <;> simp

theorem TagsWF_foldl_setTagsStep (memoryId : String) (now : Int) (ns : List String) (db : DB)
    (h : TagsWF db) : TagsWF (ns.foldl (setTagsStep memoryId now) db) := by
  induction ns generalizing db with
  | nil => exact h
  | cons n ns ih =>
    rw [List.foldl_cons]
    exact ih _ (TagsWF_setTagsStep memoryId now db n h)

theorem foldl_setTagsStep_frame (memoryId : String) (now : Int) (ns : List String) (db : DB)
    (h : TagsWF db) (t : TagRow) (ht : t ∈ db.tags) (hne : t.name ∉ ns) :
    t ∈ (ns.foldl (setTagsStep memoryId now) db).tags ∧
      tagRowCount (ns.foldl (setTagsStep memoryId now) db) t.id = tagRowCount db t.id := by
  induction ns generalizing db with
  | nil => exact ⟨ht, rfl⟩
  | cons n ns ih =>
    rw [List.foldl_cons]
    have hnn : t.name ≠ n := fun hc => hne (by rw [hc]; exact List.mem_cons_self n ns)
    have hstep := setTagsStep_frame memoryId now db n h t ht hnn
    have hwf := TagsWF_setTagsStep memoryId now db n h
    have hrec := ih (setTagsStep memoryId now db n) hwf hstep.1
      (fun hc => hne (List.mem_cons_of_mem n hc))
    exact ⟨hrec.1, by rw [hrec.2, hstep.2]⟩

theorem foldl_setTagsStep_correct (memoryId : String) (now : Int) (ns : List String) (db : DB)
    (h : TagsWF db) :
    ∀ t ∈ (ns.foldl (setTagsStep memoryId now) db).tags, t.name ∈ ns →
      t.memoryCount = tagRowCount (ns.foldl (setTagsStep memoryId now) db) t.id := by
  induction ns generalizing db with
  | nil => exact fun t _ hmem => absurd hmem (List.not_mem_nil _)
  | cons n ns ih =>
    intro t ht htname
    rw [List.foldl_cons] at ht ⊢
    have hwf2 := TagsWF_setTagsStep memoryId now db n h
    by_cases hrest : t.name ∈ ns
    · exact ih (setTagsStep memoryId now db n) hwf2 t ht hrest
    · have htn : t.name = n := by
        rcases List.mem_cons.mp htname with hh | hh
        · exact hh
        · exact absurd hh hrest
      have hnrest : n ∉ ns := by rw [← htn]; exact hrest
      obtain ⟨t1, ht1mem, ht1name, ht1count⟩ := setTagsStep_self memoryId now db n
      have hfr := foldl_setTagsStep_frame memoryId now ns (setTagsStep memoryId now db n) hwf2
        t1 ht1mem (by rw [ht1name]; exact hnrest)
      have hwff := TagsWF_foldl_setTagsStep memoryId now ns (setTagsStep memoryId now db n) hwf2
      have hteq : t = t1 := tag_name_injective _ hwff ht hfr.1 (by rw [htn, ht1name])
      rw [hteq, ht1count, ← hfr.2]

theorem recalcScore_nonneg (d ab rb s : ℝ) (ac : Nat) (c now : Int) :
    0 ≤ recalcScore d ab rb s ac c now :=
  le_min zero_le_one (le_max_left 0 _)

theorem recalcScore_le_one (d ab rb s : ℝ) (ac : Nat) (c now : Int) :
    recalcScore d ab rb s ac c now ≤ 1 :=
  min_le_left 1 _

/-! ## The claims -/

/-- Claim C5: for every memory record and every scoring operation
(query-time relevance scoring and background recalculation), with any
configured weights in the unit interval, the resulting score lies within
the unit interval.  Proved without any restriction on the weights: both
formulas end in the clamp min 1 (max 0 _). -/
theorem C5_scores_clamped (d ab rb s : ℝ) (ac : Nat) (c now : Int)
    (wi wr : ℚ) (m : MemRow) (query : String) (now2 : Int) :
    (0 ≤ recalcScore d ab rb s ac c now ∧ recalcScore d ab rb s ac c now ≤ 1) ∧
    (0 ≤ calculateRelevanceScore wi wr m query now2 ∧
      calculateRelevanceScore wi wr m query now2 ≤ 1) :=
  ⟨⟨recalcScore_nonneg d ab rb s ac c now, recalcScore_le_one d ab rb s ac c now⟩,
   le_min zero_le_one (le_max_left 0 _), min_le_left 1 _⟩

/-- Claim C6 counterexample: importance recalculation is NOT monotonically
non-increasing for a zero-access record with fixed creation time.  A
record created at time 0 with score 0, recalculated at its creation
instant and again one simulated day later (default decayFactor 0.95,
accessBoost 0.05, recencyBoost 0.1), goes from score 0.1 up to 23/120:
the recency boost is added afresh on every recalculation. -/
theorem C6_counterexample :
    recalcScore 0.95 0.05 0.1 0 0 0 0 <
      recalcScore 0.95 0.05 0.1 (recalcScore 0.95 0.05 0.1 0 0 0 0) 0 0 86400000 := by
  have h0 : (((0:Int):ℝ) - ((0:Int):ℝ)) / 86400000 = 0 := by norm_num
  have h1 : (((86400000:Int):ℝ) - ((0:Int):ℝ)) / 86400000 = 1 := by norm_num
  simp only [recalcScore, h0, h1, Real.rpow_zero, Real.rpow_one]
  norm_num

/-- Claim C6 amended: once the record is at least 30 days old at the first
recalculation (so the recency boost contributes nothing), recalculation
of a zero-access record is monotonically non-increasing across two calls
separated by simulated time, for any decayFactor in (0,1]; and the
spec example holds: a record with score 0.9, created 40 days ago, with
decayFactor 0.95 and zero accesses, recalculates to strictly below
0.9. -/
theorem C6_decay_monotone (d ab rb s0 : ℝ) (c now1 now2 : Int)
    (hd0 : 0 < d) (hd1 : d ≤ 1)
    (hage : (30:ℝ) ≤ ((now1:ℝ) - (c:ℝ)) / 86400000)
    (h12 : now1 ≤ now2) :
    recalcScore d ab rb (recalcScore d ab rb s0 0 c now1) 0 c now2
        ≤ recalcScore d ab rb s0 0 c now1
    ∧ recalcScore 0.95 0.05 0.1 0.9 0 0 3456000000 < 0.9 := by
  constructor
  · have hage2 : (30:ℝ) ≤ ((now2:ℝ) - (c:ℝ)) / 86400000 := by
      have hcast : ((now1:ℝ)) ≤ ((now2:ℝ)) := Int.cast_le.mpr h12
      have hdiv : ((now1:ℝ) - (c:ℝ)) / 86400000 ≤ ((now2:ℝ) - (c:ℝ)) / 86400000 := by
        gcongr
      linarith
    have hs1n : 0 ≤ recalcScore d ab rb s0 0 c now1 := recalcScore_nonneg d ab rb s0 0 c now1
    set s1 := recalcScore d ab rb s0 0 c now1 with hs1
    have ha2 : (0:ℝ) ≤ ((now2:ℝ) - (c:ℝ)) / 86400000 := le_trans (by norm_num) hage2
    have hmax0 : max (0:ℝ) (1 - (((now2:ℝ) - (c:ℝ)) / 86400000) / 30) = 0 := by
      apply max_eq_left
      have h1 : (1:ℝ) ≤ (((now2:ℝ) - (c:ℝ)) / 86400000) / 30 := by
        rw [le_div_iff₀ (by norm_num : (0:ℝ) < 30)]
        linarith
      linarith
    calc recalcScore d ab rb s1 0 c now2
        = min 1 (max 0 (s1 * d ^ (((now2:ℝ) - (c:ℝ)) / 86400000) + ((0:ℕ):ℝ) * ab +
            max 0 (1 - (((now2:ℝ) - (c:ℝ)) / 86400000) / 30) * rb)) := rfl
      _ = min 1 (max 0 (s1 * d ^ (((now2:ℝ) - (c:ℝ)) / 86400000))) := by
            rw [hmax0]; norm_num
      _ ≤ max 0 (s1 * d ^ (((now2:ℝ) - (c:ℝ)) / 86400000)) := min_le_right _ _
      _ = s1 * d ^ (((now2:ℝ) - (c:ℝ)) / 86400000) :=
            max_eq_right (mul_nonneg hs1n (Real.rpow_nonneg hd0.le _))
      _ ≤ s1 * 1 := mul_le_mul_of_nonneg_left (Real.rpow_le_one hd0.le hd1 ha2) hs1n
      _ = s1 := mul_one s1
  · have h40 : (((3456000000:Int):ℝ) - ((0:Int):ℝ)) / 86400000 = ((40:ℕ):ℝ) := by norm_num
    simp only [recalcScore, h40, Real.rpow_natCast]
    have hmax : max (0:ℝ) (1 - ((40:ℕ):ℝ) / 30) = 0 := max_eq_left (by norm_num)
    rw [hmax]
    refine lt_of_le_of_lt (min_le_right _ _) (max_lt (by norm_num) ?_)
    norm_num

/-- Witness for C6_decay_monotone at decayFactor 0.95, a record created at
time 0 with score 0.9, recalculated 30 and then 60 days later. -/
theorem C6_decay_monotone_witness :
    recalcScore 0.95 0.05 0.1 (recalcScore 0.95 0.05 0.1 0.9 0 0 2592000000) 0 0 5184000000
        ≤ recalcScore 0.95 0.05 0.1 0.9 0 0 2592000000
    ∧ recalcScore 0.95 0.05 0.1 0.9 0 0 3456000000 < 0.9 :=
  C6_decay_monotone 0.95 0.05 0.1 0.9 0 2592000000 5184000000
    (by norm_num) (by norm_num) (by norm_num) (by norm_num)

/-- Claim C8: deleting a memory removes all of its tag-link rows,
access-log rows, and relation edges (both endpoints): no row referencing
the deleted id remains in any table.  The cascade is the ON DELETE
CASCADE declared on every child table by ensureStructuredMemorySchema. -/
theorem C8_delete_cascades (db : DB) (id : String) :
    (∀ m ∈ (deleteMemory db id).1.memories, m.id ≠ id) ∧
    (∀ l ∈ (deleteMemory db id).1.memoryTags, l.memoryId ≠ id) ∧
    (∀ a ∈ (deleteMemory db id).1.accessLog, a.memoryId ≠ id) ∧
    (∀ r ∈ (deleteMemory db id).1.relations, r.sourceId ≠ id ∧ r.targetId ≠ id) := by
  unfold deleteMemory
  refine ⟨?_, ?_, ?_, ?_⟩ <;> intro x hx <;> simp only [List.mem_filter] at hx
  · simpa using hx.2
  · simpa using hx.2
  · simpa using hx.2
  · have := hx.2
    simp only [Bool.and_eq_true, Bool.not_eq_true] at this
    refine ⟨by simpa using this.1, by simpa using this.2⟩

/-- Witness for C8_delete_cascades: after deleting m1 from the two-memory
tagged store, the surviving link row (the one of m2) does not reference
the deleted id. -/
theorem C8_delete_cascades_witness :
    ({ memoryId := "m2", tagId := 1 } : LinkRow).memoryId ≠ "m1" :=
  (C8_delete_cascades twoTaggedDB "m1").2.1
    ({ memoryId := "m2", tagId := 1 } : LinkRow) (by decide)

/-- Claim C10: updateMemory can only change content, summary,
memory_type, importance_level, importance_score, the tag set and
updated_at; every other column of every row is preserved by every
update, and an update supplying none of those six fields (for example
one carrying only compressionLevel, compressedFrom, accessedAt,
accessCount or sourcePath) leaves the entire store unchanged, updated_at
included, because the UPDATE statement is skipped. -/
theorem C10_update_frame (db : DB) (id : String) (u : MemoryUpdates) (now : Int) :
    ((updateMemory db id u now).1.memories.map frameFields = db.memories.map frameFields) ∧
    (u.content = none → u.summary = none → u.memoryType = none → u.importanceLevel = none →
      u.importanceScore = none → u.tags = none → (updateMemory db id u now).1 = db) := by
  refine ⟨updateMemory_frame db id u now, fun h1 h2 h3 h4 h5 h6 => ?_⟩
  refine updateMemory_untracked db id u now ?_ h6
  unfold hasColumnSets
  rw [h1, h2, h3, h4, h5]
  rfl

/-- Witness for C10_update_frame: updating m1 of the six-note store with
an update that carries only untracked fields leaves the store
unchanged. -/
theorem C10_update_frame_witness :
    (updateMemory sixNoteDB "m1" untrackedOnlyUpdate 99).1 = sixNoteDB :=
  (C10_update_frame sixNoteDB "m1" untrackedOnlyUpdate 99).2 rfl rfl rfl rfl rfl rfl

/-- Claim C1 (code bug): on a store of exactly six level-0 note records
created in one ISO week (2024-W01) more than 7 days before now, weekly
compaction creates exactly one summary record, at compressionLevel 1,
whose compressedFrom lists all six source ids, and all six originals
still exist — but every original still reports compressionLevel 0, not
1 as the spec states: the engine marks sources through updateMemory
with an update carrying only compressionLevel, which updateMemory
silently drops (the engine comment says Mark originals as compressed,
so the store, not the spec, is at fault). -/
theorem C1_weekly_marking_dropped :
    ((compressToWeekly defaultCompressionCfg sixNoteDB sixNoteNow
        (fun n => "w" ++ toString n)).map (fun r => r.2) = some 1) ∧
    ((compressToWeekly defaultCompressionCfg sixNoteDB sixNoteNow
        (fun n => "w" ++ toString n)).map
          (fun r => r.1.memories.map (fun m => (m.id, m.compressionLevel)))
      = some [("m1", 0), ("m2", 0), ("m3", 0), ("m4", 0), ("m5", 0), ("m6", 0), ("w0", 1)]) ∧
    ((compressToWeekly defaultCompressionCfg sixNoteDB sixNoteNow
        (fun n => "w" ++ toString n)).map
          (fun r => r.1.memories.map (fun m => m.memoryType))
      = some [.note, .note, .note, .note, .note, .note, .summary]) ∧
    ((compressToWeekly defaultCompressionCfg sixNoteDB sixNoteNow
        (fun n => "w" ++ toString n)).map
          (fun r => r.1.memories.map (fun m => m.compressedFrom))
      = some [none, none, none, none, none, none, some ["m1", "m2", "m3", "m4", "m5", "m6"]]) :=
  ⟨by decide, by decide, by decide, by decide⟩

set_option maxRecDepth 100000 in
/-- Claim C2 counterexample: monthly compaction does not delete its
sources.  On a store of two level-1 note records in one calendar month,
older than the 30-day threshold, the stage returns created = 1 and the
store then holds THREE records — the two sources (still at level 1) plus
the new summary — where the claim requires the count to drop to one with
the sources removed. -/
theorem C2_counterexample :
    ((compressToMonthly defaultCompressionCfg twoLevelOneDB twoLevelOneNow
        (fun n => "mo" ++ toString n)).map (fun r => (r.2, r.1.memories.length))
      = some (1, 3)) ∧
    ((compressToMonthly defaultCompressionCfg twoLevelOneDB twoLevelOneNow
        (fun n => "mo" ++ toString n)).map
          (fun r => r.1.memories.map (fun m => (m.id, m.compressionLevel)))
      = some [("n1", 1), ("n2", 1), ("mo0", 2)]) :=
  ⟨by decide, by decide⟩

set_option maxRecDepth 100000 in
/-- Claim C2 amended: monthly compaction retains its source records: for
every store, after the stage every pre-existing row is still present
unchanged and the total record count has increased by exactly the number
of created summaries (one per eligible group); the engine only attempts
to mark sources at level 2 through an updateMemory call that the store
drops. -/
theorem C2_monthly_retains (cfg : CompressionCfg) (db : DB) (now : Int) (fresh : Nat → String)
    (T : Int) (hparse : parseDuration cfg.weeklyToMonthly = some T) :
    ∃ r, compressToMonthly cfg db now fresh = some r ∧
      r.1.memories.length = db.memories.length + r.2 ∧
      ∀ m ∈ db.memories, m ∈ r.1.memories := by
  unfold compressToMonthly
  rw [hparse]
  refine ⟨_, rfl, ?_, ?_⟩
  · have h := (foldl_processMonthlyGroup_shape now fresh
      (groupByKey (fun m => monthKey m.createdAt)
        (getMemoriesForCompression db (now - T) 1 1000)) (db, 0)).1
    dsimp only at h
    omega
  · intro m hm
    exact (foldl_processMonthlyGroup_shape now fresh
      (groupByKey (fun m => monthKey m.createdAt)
        (getMemoriesForCompression db (now - T) 1 1000)) (db, 0)).2 m hm

/-- Witness for C2_monthly_retains on the concrete two-record store under
the default configuration (30d parses to 2592000000 ms). -/
theorem C2_monthly_retains_witness :
    ∃ r, compressToMonthly defaultCompressionCfg twoLevelOneDB twoLevelOneNow
        (fun n => "mo" ++ toString n) = some r ∧
      r.1.memories.length = twoLevelOneDB.memories.length + r.2 ∧
      ∀ m ∈ twoLevelOneDB.memories, m ∈ r.1.memories :=
  C2_monthly_retains defaultCompressionCfg twoLevelOneDB twoLevelOneNow
    (fun n => "mo" ++ toString n) 2592000000 (by decide)

/-- Claim C3 (code bug): archival DOES select records whose
compressionLevel is below 2.  The selection query filters with
compression_level at most the bound and the archival stage passes 2, so
a never-accessed level-0 note older than the 90-day threshold is
selected and archived (its memory_type is mutated to archive while its
level is still 0), contradicting the spec invariant that archival only
touches level-2 records and the call-site comment that the selected
records are already compressed to monthly.  The weekly and monthly
bounds (levels at most 0 and at most 1) do satisfy their parts of the
claim. -/
theorem C3_archival_selects_low_level :
    ((archiveOldMemories defaultCompressionCfg oneColdNoteDB oneColdNoteNow).map
        (fun r => (r.2, r.1.memories.map (fun m => (m.id, m.compressionLevel))))
      = some (1, [("a1", 0)])) ∧
    ((archiveOldMemories defaultCompressionCfg oneColdNoteDB oneColdNoteNow).map
        (fun r => r.1.memories.map (fun m => m.memoryType))
      = some [.archive]) :=
  ⟨by decide, by decide⟩

theorem jsSplitWsAux_ne_nil : ∀ (l : List Char) (b : Bool) (acc : List Char),
    jsSplitWsAux b l acc ≠ [] := by
  intro l
  induction l with
  | nil => intro b acc; exact List.cons_ne_nil _ _
  | cons c rest ih =>
    intro b acc
    simp only [jsSplitWsAux]
    split
    · split
      · exact ih true acc
      · exact List.cons_ne_nil _ _
    · exact ih false (c :: acc)

theorem tokenSet_card_pos (s : String) : 0 < (tokenSet s).card := by
  unfold tokenSet
  rw [Finset.card_pos]
  cases h : jsSplitWs (jsToLower s) with
  | nil => exact absurd h (jsSplitWsAux_ne_nil _ _ _)
  | cons a t => exact ⟨a, by simp [h]⟩

theorem updateMemory_content_set (db : DB) (id : String) (cnew : String) (mt : MemoryType)
    (now : Int) :
    ∀ m ∈ (updateMemory db id { content := some cnew, memoryType := some mt } now).1.memories,
      m.id = id → m.content = cnew := by
  intro m hm hid
  unfold updateMemory at hm
  cases h : getMemoryRow db id with
  | none =>
    rw [h] at hm
    dsimp only at hm
    have hnone := List.find?_eq_none.mp h m hm
    simp [getMemoryRow, hid] at hnone
  | some m0 =>
    rw [h] at hm
    simp only [hasColumnSets, Option.isSome_some, Bool.true_or, Bool.or_true,
      if_true] at hm
    rcases List.mem_map.mp hm with ⟨m1, hm1, heq⟩
    by_cases hid1 : (m1.id == id)
    · rw [if_pos hid1] at heq
      rw [← heq]
      rfl
    · rw [if_neg hid1] at heq
      subst heq
      exact absurd hid (by simpa using hid1)

/-- Claim C4 counterexample: the reconciler's score is NOT the word-set
Jaccard similarity.  For the texts x y and y z the code computes
overlap over the larger set size, 1/2, while the Jaccard similarity is
1/3. -/
theorem C4_counterexample :
    calculateSimilarity "x y" "y z" ≠ jaccardSimilarity "x y" "y z" := by
  have h1 : (tokenSet "x y" ∩ tokenSet "y z").card = 1 := by decide
  have h2 : max (tokenSet "x y").card (tokenSet "y z").card = 2 := by decide
  have h3 : (tokenSet "x y" ∪ tokenSet "y z").card = 3 := by decide
  unfold calculateSimilarity jaccardSimilarity
  rw [h1, h2, h3]
  norm_num

/-- Claim C4 amended: the matcher's score is the token-set overlap
divided by the LARGER of the two set sizes — it always dominates the
word-set Jaccard similarity instead of equalling it — and the update
threshold is strict: a section scoring strictly above 0.7 against the
existing record is applied as an in-place update of that record (row
ids unchanged, the matched record's content rewritten to the section),
while a section scoring 0.7 or below is inserted as a new record. -/
theorem C4_similarity_matching :
    (∀ a b : String, jaccardSimilarity a b ≤ calculateSimilarity a b) ∧
    (∀ (db : DB) (existing : MemRow) (sec : ParsedSection) (path freshId : String) (now : Int),
      (0.7:ℚ) < calculateSimilarity existing.content sec.content →
        (syncSection db existing sec path freshId now).memories.map (fun m => m.id)
            = db.memories.map (fun m => m.id) ∧
        ∀ m ∈ (syncSection db existing sec path freshId now).memories,
          m.id = existing.id → m.content = sec.content) ∧
    (∀ (db : DB) (existing : MemRow) (sec : ParsedSection) (path freshId : String) (now : Int),
      calculateSimilarity existing.content sec.content ≤ (0.7:ℚ) →
        ∃ row, (syncSection db existing sec path freshId now).memories = db.memories ++ [row] ∧
          row.content = sec.content ∧ row.id = freshId) := by
  refine ⟨?_, ?_, ?_⟩
  · intro a b
    unfold jaccardSimilarity calculateSimilarity
    have hmax : (0:ℚ) < ((max (tokenSet a).card (tokenSet b).card : ℕ) : ℚ) := by
      exact_mod_cast lt_of_lt_of_le (tokenSet_card_pos a) (le_max_left _ _)
    have hsub : ((max (tokenSet a).card (tokenSet b).card : ℕ) : ℚ)
        ≤ (((tokenSet a ∪ tokenSet b).card : ℕ) : ℚ) := by
      exact_mod_cast max_le (Finset.card_le_card Finset.subset_union_left)
        (Finset.card_le_card Finset.subset_union_right)
    exact div_le_div_of_nonneg_left (by positivity) hmax hsub
  · intro db existing sec path freshId now hsim
    unfold syncSection findSectionByContent
    rw [if_pos hsim]
    exact ⟨updateMemory_ids db existing.id _ now,
      updateMemory_content_set db existing.id sec.content sec.memoryType now⟩
  · intro db existing sec path freshId now hsim
    unfold syncSection findSectionByContent
    rw [if_neg (not_lt.mpr hsim)]
    exact ⟨newMemRow _ freshId now, createMemory_memories db _ freshId now, rfl, rfl⟩

/-- Witness for C4_similarity_matching: a similarity-1 section is applied
in place (both branches of the amended claim instantiated at concrete
inputs; the in-place branch keeps the single record id e1). -/
theorem C4_similarity_matching_witness :
    (syncSection { emptyDB with memories := [wExisting] } wExisting wSection "p" "f9" 5).memories.map
        (fun m => m.id)
      = ({ emptyDB with memories := [wExisting] } : DB).memories.map (fun m => m.id) :=
  (C4_similarity_matching.2.1 { emptyDB with memories := [wExisting] } wExisting wSection "p" "f9" 5
    (by
      have h1 : (tokenSet "alpha beta" ∩ tokenSet "alpha beta").card = 2 := by decide
      have h2 : max (tokenSet "alpha beta").card (tokenSet "alpha beta").card = 2 := by decide
      show (0.7:ℚ) < calculateSimilarity wExisting.content wSection.content
      unfold calculateSimilarity
      show (0.7:ℚ) < ((tokenSet "alpha beta" ∩ tokenSet "alpha beta").card : ℚ) /
        ((max (tokenSet "alpha beta").card (tokenSet "alpha beta").card : ℕ) : ℚ)
      rw [h1, h2]
      norm_num)).1

/-- Claim C7 counterexample: tag counts are NOT kept consistent for tags
removed by a tag-set mutation.  Creating memory m1 with tag a and then
replacing its tag set by b leaves tag a with memory_count 1 while it has
zero link rows. -/
theorem C7_counterexample :
    (retaggedDB.tags.map (fun t => (t.name, t.id, t.memoryCount)) = [("a", 1, 1), ("b", 2, 1)]) ∧
    tagRowCount retaggedDB 1 = 0 :=
  ⟨by decide, by decide⟩

/-- Claim C7 amended: on every tag-set mutation, the denormalized count is
recomputed — and equals the number of link rows — only for the tags in
the NEWLY supplied tag set; a tag not in that set keeps its previous row
(so a tag just removed from the memory retains its now-stale count).
Well-formedness of the tags table (distinct ids, unique names, fresh
AUTOINCREMENT counter) is what SQLite guarantees. -/
theorem C7_tag_counts (db : DB) (hwf : TagsWF db) (memoryId : String) (names : List String)
    (now : Int) :
    (∀ t ∈ (setTagsForMemory db memoryId names now).tags, t.name ∈ names →
        t.memoryCount = tagRowCount (setTagsForMemory db memoryId names now) t.id) ∧
    (∀ t ∈ db.tags, t.name ∉ names → t ∈ (setTagsForMemory db memoryId names now).tags) := by
  unfold setTagsForMemory
  have hwf0 : TagsWF
      { db with memoryTags := db.memoryTags.filter (fun l => !(l.memoryId == memoryId)) } := hwf
  exact ⟨foldl_setTagsStep_correct memoryId now names _ hwf0,
    fun t ht hn => (foldl_setTagsStep_frame memoryId now names _ hwf0 t ht hn).1⟩

/-- Witness for C7_tag_counts: replacing the tag set of m1 by b on the
concrete one-tag store; the freshly linked tag b (row id 2, count 1) has
its count equal to its one link row. -/
theorem C7_tag_counts_witness :
    ({ id := 2, name := "b", createdAt := 1, memoryCount := 1 } : TagRow).memoryCount
      = tagRowCount (setTagsForMemory oneTaggedDB "m1" ["b"] 1)
          ({ id := 2, name := "b", createdAt := 1, memoryCount := 1 } : TagRow).id :=
  (C7_tag_counts oneTaggedDB (by decide) "m1" ["b"] 1).1
    ({ id := 2, name := "b", createdAt := 1, memoryCount := 1 } : TagRow)
    (by decide) (by decide)

/-- Claim C9 (code bug): search cannot return access-logged results — it
throws before producing any.  Its first action is
recordAccess(search-query, search, query), whose access-log INSERT
carries the literal memory_id search-query; that id references no
memory row, the declared foreign key (enforced by node:sqlite by
default, the same enforcement the delete cascade relies on) rejects the
INSERT, and the constraint error propagates out of search().  On the
concrete store whose single memory m1 matches the query hello, the
store-level search would have returned m1, but the backend call aborts
(none) at the failed insert, so nothing is returned and no access is
logged — while the code's own comment says Record search in access
log. -/
theorem C9_search_throws :
    (backendSearch oneHelloDB "hello" 10 (3/10) (1/5) 86400000 = none) ∧
    (recordAccess oneHelloDB "search-query" "search" (some "hello") 86400000 = none) ∧
    ((searchMemories oneHelloDB { query := some "hello", limit := 10, orderBy := .relevance }).map
        (fun m => m.id) = ["m1"]) :=
  ⟨by decide, by decide, by decide⟩

end OpenClaw
